import Mathlib

/-!
Verification development for the IYFThreading library (ThreadProfiler.hpp,
ThreadPool.hpp, ThreadProfilerSettings.hpp).

The C++ sources are shallowly embedded: classes become structures, machine
integers become Nat/Int with explicit reductions where the code truncates,
std::deque / std::vector become lists (front = head, push_back = append at the
tail), and std::unordered_map becomes an insertion-ordered association list
(iteration order of the C++ container is unspecified; the embedding fixes it
to insertion order, which is the order the profiler inserts tag ids 0,1,2,...).
File I/O is embedded as a byte-list stream with an explicit fail flag mirroring
std::istream's failbit; values read after a short read are indeterminate in
C++ and are determinized to 0 here (std::istream::get at EOF deterministically
returns -1, which is kept exactly).
-/

namespace IYFT

/-! ## Byte-level primitives (native little-endian, as written by os.write) -/

/-- Encode a natural number into w bytes, least significant byte first
(the memory image os.write emits on a little-endian machine). -/
def natToBytes : Nat → Nat → List Nat
  | 0, _ => []
  | w + 1, n => n % 256 :: natToBytes w (n / 256)

/-- Decode a little-endian byte list back into a natural number
(the in-memory integer is.read reconstructs). -/
def bytesToNat : List Nat → Nat
  | [] => 0
  | b :: rest => b % 256 + 256 * bytesToNat rest

/-- Two's-complement image of a signed value in the given number of bits, as
stored in memory. -/
def intToTwos (bits : Nat) (z : Int) : Nat :=
  (z.emod ((2 : Int) ^ bits)).toNat

/-- Reinterpret a 64-bit unsigned image as the int64 it encodes. -/
def toInt64 (m : Nat) : Int :=
  if m < 2 ^ 63 then (m : Int) else (m : Int) - 2 ^ 64

/-- Reinterpret a 32-bit unsigned image as the int32 it encodes. -/
def toInt32 (m : Nat) : Int :=
  if m < 2 ^ 31 then (m : Int) else (m : Int) - 2 ^ 32

/-- A binary input stream: remaining bytes plus the failbit of std::istream. -/
structure ByteStream where
  data : List Nat
  failed : Bool
deriving DecidableEq, Repr

/-- std::istream::get — one byte as an int, or -1 at end of file (failbit set). -/
def stGet (s : ByteStream) : Int × ByteStream :=
  if s.failed then (-1, s)
  else
    match s.data with
    | [] => (-1, { data := [], failed := true })
    | b :: rest => ((b : Int), { data := rest, failed := s.failed })

/-- std::istream::read of w bytes. A short read yields the available bytes and
sets the failbit; the untouched remainder of the destination buffer is
indeterminate in C++ and is determinized to 0 here. -/
def stRead (w : Nat) (s : ByteStream) : List Nat × ByteStream :=
  if s.failed then (List.replicate w 0, s)
  else if w ≤ s.data.length then (s.data.take w, { data := s.data.drop w, failed := false })
  else (s.data ++ List.replicate (w - s.data.length) 0, { data := [], failed := true })

/-- ReadUInt64 from ThreadProfiler.hpp. -/
def ReadUInt64 (s : ByteStream) : Nat × ByteStream :=
  let (bs, s₁) := stRead 8 s
  (bytesToNat bs, s₁)

/-- ReadUInt32 from ThreadProfiler.hpp. -/
def ReadUInt32 (s : ByteStream) : Nat × ByteStream :=
  let (bs, s₁) := stRead 4 s
  (bytesToNat bs, s₁)

/-- ReadInt32 from ThreadProfiler.hpp. -/
def ReadInt32 (s : ByteStream) : Int × ByteStream :=
  let (bs, s₁) := stRead 4 s
  (toInt32 (bytesToNat bs), s₁)

/-- ReadUInt8 from ThreadProfiler.hpp. -/
def ReadUInt8 (s : ByteStream) : Nat × ByteStream :=
  let (bs, s₁) := stRead 1 s
  (bytesToNat bs, s₁)

/-- ReadNanos from ThreadProfiler.hpp (an int64 nanosecond count). -/
def ReadNanos (s : ByteStream) : Int × ByteStream :=
  let (bs, s₁) := stRead 8 s
  (toInt64 (bytesToNat bs), s₁)

/-- ReadString from ThreadProfiler.hpp: a uint16 length then that many raw
bytes. The C++ pre-fills the buffer with NUL characters, so a short read
leaves the tail at 0 — exactly the stRead determinization. -/
def ReadString (s : ByteStream) : List Nat × ByteStream :=
  let (lbs, s₁) := stRead 2 s
  stRead (bytesToNat lbs) s₁

/-- WriteUInt64 from ThreadProfiler.hpp. -/
def WriteUInt64 (n : Nat) : List Nat := natToBytes 8 n

/-- WriteUInt32 from ThreadProfiler.hpp. -/
def WriteUInt32 (n : Nat) : List Nat := natToBytes 4 n

/-- WriteInt32 from ThreadProfiler.hpp. -/
def WriteInt32 (z : Int) : List Nat := natToBytes 4 (intToTwos 32 z)

/-- WriteUInt8 from ThreadProfiler.hpp. -/
def WriteUInt8 (n : Nat) : List Nat := natToBytes 1 n

/-- WriteNanos from ThreadProfiler.hpp. -/
def WriteNanos (z : Int) : List Nat := natToBytes 8 (intToTwos 64 z)

/-- WriteString from ThreadProfiler.hpp: the length cast to uint16, then that
truncated number of raw bytes. -/
def WriteString (str : List Nat) : List Nat :=
  natToBytes 2 str.length ++ str.take (str.length % 65536)

/-- os.put of a bool (operator<< conversion: true writes 1, false writes 0). -/
def boolByte (b : Bool) : Nat := if b then 1 else 0

/-- Run a reader k times, collecting the results in order (the for-loops of
LoadFromFile). -/
def readCount {α : Type} (k : Nat) (r : ByteStream → α × ByteStream) (s : ByteStream) :
    List α × ByteStream :=
  match k with
  | 0 => ([], s)
  | k + 1 =>
    let (a, s₁) := r s
    let (as, s₂) := readCount k r s₁
    (a :: as, s₂)

/-! ## Core profiler data model (ThreadProfiler.hpp) -/

/-- ScopeColor: an RGBA color, each channel a uint8. -/
structure ScopeColor where
  r : Nat
  g : Nat
  b : Nat
  a : Nat
deriving DecidableEq, Repr

/-- RecordedEvent: a TimedProfilerObject (start/end nanosecond stamps) plus the
scope key (uint32 hash) and the stack depth (int32). The C++ constructor
leaves the inherited end member default-initialized; the embedding fixes that
indeterminate value to 0, the value-initialized sentinel (the companion
ThreadProfilerCore.hpp version initializes it to 0 explicitly). -/
structure RecordedEvent where
  key : Nat
  depth : Int
  start : Int
  endTime : Int
deriving DecidableEq, Repr

/-- FrameData: a TimedProfilerObject plus the uint64 frame number. -/
structure FrameData where
  number : Nat
  start : Int
  endTime : Int
deriving DecidableEq, Repr

/-- TimedProfilerObject::isComplete — the end time is bigger than the start. -/
def FrameData.isComplete (f : FrameData) : Bool := f.start < f.endTime

/-- TimedProfilerObject::isValid on a RecordedEvent — start and end differ. -/
def RecordedEvent.isValid (e : RecordedEvent) : Bool := e.start ≠ e.endTime

/-- ScopeInfo: data unique per profiled scope. Strings are byte lists. -/
structure ScopeInfo where
  key : Nat
  tag : Nat
  name : List Nat
  functionName : List Nat
  fileName : List Nat
  lineNumber : Nat
deriving DecidableEq, Repr

/-- ProfilerResults::TagNameAndColor. -/
structure TagNameAndColor where
  name : List Nat
  color : ScopeColor
deriving DecidableEq, Repr

/-- ProfilerResults: the extracted bundle. unordered_map members are embedded
as insertion-ordered association lists. -/
structure ProfilerResults where
  frames : List FrameData
  scopes : List (Nat × ScopeInfo)
  tags : List (Nat × TagNameAndColor)
  events : List (List RecordedEvent)
  threadNames : List (List Nat)
  frameDataMissing : Bool
  anyRecords : Bool
  withCookie : Bool
deriving DecidableEq, Repr

/-! ## The comparison operators (operator== translated verbatim) -/

/-- ScopeColor::operator==. -/
def scopeColorEq (a b : ScopeColor) : Bool :=
  (a.r == b.r) && (a.g == b.g) && (a.b == b.b) && (a.a == b.a)

/-- ScopeInfo::operator==. The source compares a.functionName with itself
(a.functionName == a.functionName); the slip is kept. -/
def scopeInfoEq (a b : ScopeInfo) : Bool :=
  (a.key == b.key) && (a.tag == b.tag) && (a.name == b.name) &&
  (a.functionName == a.functionName) && (a.fileName == b.fileName) &&
  (a.lineNumber == b.lineNumber)

/-- RecordedEvent::operator==. The source compares a.getEnd() with a.getEnd()
(the left operand's end with itself); the slip is kept. -/
def recordedEventEq (a b : RecordedEvent) : Bool :=
  (a.key == b.key) && (a.depth == b.depth) && (a.start == b.start) &&
  (a.endTime == a.endTime)

/-- FrameData::operator==. The source compares a.getEnd() with a.getEnd(); the
slip is kept. -/
def frameDataEq (a b : FrameData) : Bool :=
  (a.number == b.number) && (a.start == b.start) && (a.endTime == a.endTime)

/-- TagNameAndColor::operator==. -/
def tagEq (a b : TagNameAndColor) : Bool :=
  (a.name == b.name) && scopeColorEq a.color b.color

/-- Sequence equality of std::deque / std::vector: same length and equal
elements position by position. -/
def listEqBy {α : Type} (eq : α → α → Bool) : List α → List α → Bool
  | [], [] => true
  | x :: xs, y :: ys => eq x y && listEqBy eq xs ys
  | _, _ => false

/-- First value stored under a key in an association list. -/
def assocFind {α : Type} (k : Nat) : List (Nat × α) → Option α
  | [] => none
  | (k₂, v) :: rest => if k₂ = k then some v else assocFind k rest

/-- std::unordered_map::operator== over the association-list embedding: equal
sizes and, for every entry of a, an entry of b with the same key whose mapped
value compares equal. -/
def mapEqBy {α : Type} (veq : α → α → Bool) (a b : List (Nat × α)) : Bool :=
  (a.length == b.length) &&
  a.all (fun kv =>
    match assocFind kv.1 b with
    | some v => veq kv.2 v
    | none => false)

/-- ProfilerResults::operator== (ThreadProfiler.hpp lines 734-743). -/
def profilerResultsEq (a b : ProfilerResults) : Bool :=
  listEqBy frameDataEq a.frames b.frames &&
  mapEqBy scopeInfoEq a.scopes b.scopes &&
  mapEqBy tagEq a.tags b.tags &&
  listEqBy (listEqBy recordedEventEq) a.events b.events &&
  (a.threadNames == b.threadNames) &&
  (a.frameDataMissing == b.frameDataMissing) &&
  (a.anyRecords == b.anyRecords) &&
  (a.withCookie == b.withCookie)

/-! ## Settings (ThreadProfilerSettings.hpp, default configuration) -/

/-- ProfilerTag::COUNT with the shipped settings file: NoTag = 0, COUNT = 1. -/
def profilerTagCount : Nat := 1

/-- The byte string "Untagged". -/
def untaggedName : List Nat := [85, 110, 116, 97, 103, 103, 101, 100]

/-- The byte string "ERROR-INVALID-VALUE". -/
def errorTagName : List Nat :=
  [69, 82, 82, 79, 82, 45, 73, 78, 86, 65, 76, 73, 68, 45, 86, 65, 76, 85, 69]

/-- GetTagName from the settings implementation: NoTag and COUNT map to
"Untagged", anything else to "ERROR-INVALID-VALUE". -/
def GetTagName (tag : Nat) : List Nat :=
  if tag = 0 ∨ tag = 1 then untaggedName else errorTagName

/-- GetTagColor from the settings implementation: NoTag and COUNT map to
white, anything else to black. -/
def GetTagColor (tag : Nat) : ScopeColor :=
  if tag = 0 ∨ tag = 1 then ⟨255, 255, 255, 255⟩ else ⟨0, 0, 0, 255⟩

/-! ## The live profiler state (ThreadProfiler class) -/

/-- ThreadProfiler::ThreadData. The active stack of open scopes is stored
top-first (the vector's back is the head of this list); the completed-events
deque is stored front-first (push_back appends at the tail). -/
structure ThreadData where
  activeStack : List RecordedEvent
  recordedEvents : List RecordedEvent
  depth : Int
deriving DecidableEq, Repr

/-- A default-constructed ThreadData: empty containers, depth -1. -/
def defaultThreadData : ThreadData := ⟨[], [], -1⟩

/-- The mutable state of the ThreadProfiler singleton. -/
structure ProfilerState where
  recording : Bool
  scopes : List (Nat × ScopeInfo)
  threads : List ThreadData
  frameNumber : Nat
  frames : List FrameData
deriving DecidableEq, Repr

/-- The ThreadIDAssigner registry: the names array and the id counter. -/
structure Registry where
  names : List (List Nat)
  counter : Nat
deriving DecidableEq, Repr

/-- ThreadProfiler::insertScopeStart for one thread's data: bump depth, then
push an event whose start is now() while recording and the epoch sentinel 0
otherwise (the clock is not even called). The end member stays at its
initial 0. -/
def insertScopeStart (recording : Bool) (now : Int) (key : Nat) (td : ThreadData) :
    ThreadData :=
  let depth' := td.depth + 1
  let e : RecordedEvent :=
    { key := key, depth := depth', start := if recording then now else 0, endTime := 0 }
  { td with depth := depth', activeStack := e :: td.activeStack }

/-- ThreadProfiler::insertScopeEnd for one thread's data: while recording, if
the top of the active stack is valid (start differs from end), stamp its end
with now() and push it onto the completed-events queue; in every case pop the
stack and decrement depth. Calling this with an empty active stack is
undefined behaviour in the C++ (pop_back on an empty vector); the embedding
makes it decrement depth only. -/
def insertScopeEnd (recording : Bool) (now : Int) (key : Nat) (td : ThreadData) :
    ThreadData :=
  match td.activeStack with
  | [] => { td with depth := td.depth - 1 }
  | top :: rest =>
    if recording && top.isValid then
      { td with
        activeStack := rest
        depth := td.depth - 1
        recordedEvents := td.recordedEvents ++ [{ top with endTime := now }] }
    else
      { td with activeStack := rest, depth := td.depth - 1 }

/-- A scope operation performed by one thread (IYF_PROFILE entry or exit). -/
inductive ScopeOp where
  | enter (key : Nat)
  | leave (key : Nat)
deriving DecidableEq, Repr

/-- Apply one scope operation on the thread with the given id. -/
def applyScopeOp (recording : Bool) (now : Int) (st : ProfilerState)
    (op : Nat × ScopeOp) : ProfilerState :=
  match op.2 with
  | ScopeOp.enter key =>
    let td := insertScopeStart recording now key (st.threads.getD op.1 defaultThreadData)
    { st with threads := st.threads.set op.1 td }
  | ScopeOp.leave key =>
    let td := insertScopeEnd recording now key (st.threads.getD op.1 defaultThreadData)
    { st with threads := st.threads.set op.1 td }

/-! ## Snapshot extraction (ThreadProfiler::getResults) -/

/-- The per-thread completed-event queues drained by getResults: one queue per
registered thread, in id order, in commit order (not yet sorted by start). -/
def eventsOf (st : ProfilerState) (reg : Registry) : List (List RecordedEvent) :=
  (List.range reg.counter).map fun i => (st.threads.getD i defaultThreadData).recordedEvents

/-- The per-thread names copied by getResults. -/
def threadNamesOf (reg : Registry) : List (List Nat) :=
  (List.range reg.counter).map fun i => reg.names.getD i []

/-- The fold computing the synthetic frame's start when the ledger is empty:
min over every nonempty queue of the start of its front (first committed)
event, beginning from nanoseconds::max() = 2^63 - 1. -/
def foldFirst (evss : List (List RecordedEvent)) : Int :=
  evss.foldl
    (fun acc t =>
      match t with
      | [] => acc
      | e :: _ => min acc e.start)
    (2 ^ 63 - 1)

/-- The fold computing the synthetic frame's end when the ledger is empty:
max over every nonempty queue of the start of its back (last committed)
event, beginning from nanoseconds::min() = -2^63. -/
def foldLast (evss : List (List RecordedEvent)) : Int :=
  evss.foldl
    (fun acc t =>
      if t.isEmpty then acc else max acc ((t.getLastD ⟨0, 0, 0, 0⟩).start))
    (-(2 ^ 63))

/-- getResults' final fixup of the frame ledger when it is nonempty: set the
last frame's end to now() unless the frame is already complete. -/
def patchLastFrame (now : Int) : List FrameData → List FrameData
  | [] => []
  | [f] => [if f.isComplete then f else { f with endTime := now }]
  | f :: g :: rest => f :: patchLastFrame now (g :: rest)

/-- Insert an event into a list sorted by start time (strict operator< of
RecordedEvent). Determinizes std::sort, whose order on equal keys is
unspecified. -/
def insertByStart (e : RecordedEvent) : List RecordedEvent → List RecordedEvent
  | [] => [e]
  | x :: xs => if e.start < x.start then e :: x :: xs else x :: insertByStart e xs

/-- Sort a queue of events by start time. -/
def sortByStart : List RecordedEvent → List RecordedEvent
  | [] => []
  | x :: xs => insertByStart x (sortByStart xs)

/-- The tag table getResults populates: one entry per tag value in
[NoTag, COUNT), keyed and inserted in ascending order. -/
def tagsTable : List (Nat × TagNameAndColor) :=
  (List.range profilerTagCount).map fun i => (i, ⟨GetTagName i, GetTagColor i⟩)

/-- ThreadProfiler::getResults (ThreadProfiler.hpp lines 1034-1130): drain the
frame ledger, copy the scope table, drain every registered thread's queue and
name, build the tag table, compute anyRecords, reconcile missing frame data,
set withCookie from the build configuration (false: IYF_PROFILER_WITH_COOKIE
is not defined), and finally sort each queue with more than one event by
start time. -/
def getResults (st : ProfilerState) (reg : Registry) (now : Int) : ProfilerResults :=
  let events₀ := eventsOf st reg
  let anyRecords := events₀.any fun t => !t.isEmpty
  let framesAndFlag :=
    if st.frames.isEmpty && !anyRecords then
      (([⟨0, 0, 1⟩] : List FrameData), true)
    else if st.frames.isEmpty then
      (([⟨0, foldFirst events₀, foldLast events₀⟩] : List FrameData), true)
    else
      (patchLastFrame now st.frames, false)
  { frames := framesAndFlag.1
    scopes := st.scopes
    tags := tagsTable
    events := events₀.map fun t => if 1 < t.length then sortByStart t else t
    threadNames := threadNamesOf reg
    frameDataMissing := framesAndFlag.2
    anyRecords := anyRecords
    withCookie := false }

/-! ## Binary serialization (ProfilerResults::writeToFile / LoadFromFile) -/

/-- One frame record of section 2: u64 number, i64 start, i64 end. -/
def writeFrame (f : FrameData) : List Nat :=
  WriteUInt64 f.number ++ WriteNanos f.start ++ WriteNanos f.endTime

/-- One tag record of section 3: u32 id, string name, four color bytes. -/
def writeTag (t : Nat × TagNameAndColor) : List Nat :=
  WriteUInt32 t.1 ++ WriteString t.2.name ++
  WriteUInt8 t.2.color.r ++ WriteUInt8 t.2.color.g ++
  WriteUInt8 t.2.color.b ++ WriteUInt8 t.2.color.a

/-- One scope record of section 4. The id written is the ScopeInfo's own key
(scope.getKey().getValue()), not the map key. -/
def writeScope (s : Nat × ScopeInfo) : List Nat :=
  WriteUInt32 s.2.key ++ WriteUInt32 s.2.tag ++ WriteString s.2.name ++
  WriteString s.2.functionName ++ WriteString s.2.fileName ++
  WriteUInt32 s.2.lineNumber

/-- One event record of section 5 (the build has no cookies, so none is
written). -/
def writeEvent (e : RecordedEvent) : List Nat :=
  WriteUInt32 e.key ++ WriteInt32 e.depth ++ WriteNanos e.start ++ WriteNanos e.endTime

/-- One thread's slice of section 5: u64 event count, then the events. -/
def writeThreadEvents (evs : List RecordedEvent) : List Nat :=
  WriteUInt64 evs.length ++ (evs.map writeEvent).flatten

/-- ProfilerResults::writeToFile (ThreadProfiler.hpp lines 1317-1395), modulo
the stream itself: the byte sequence put on a successfully opened file. -/
def writeToFile (r : ProfilerResults) : List Nat :=
  73 :: 89 :: 70 :: 82 ::
  1 :: boolByte r.frameDataMissing :: boolByte r.anyRecords :: boolByte r.withCookie ::
  (WriteUInt64 r.threadNames.length ++ (r.threadNames.map WriteString).flatten ++
   WriteUInt64 r.frames.length ++ (r.frames.map writeFrame).flatten ++
   WriteUInt64 r.tags.length ++ (r.tags.map writeTag).flatten ++
   WriteUInt64 r.scopes.length ++ (r.scopes.map writeScope).flatten ++
   (r.events.map writeThreadEvents).flatten)

/-- std::unordered_map::emplace on an association list: keep the existing
entry if the key is present, otherwise append. -/
def emplace {α : Type} (m : List (Nat × α)) (k : Nat) (v : α) : List (Nat × α) :=
  match assocFind k m with
  | some _ => m
  | none => m ++ [(k, v)]

/-- Emplace a whole list of entries in order. -/
def emplaceAll {α : Type} (acc : List (Nat × α)) : List (Nat × α) → List (Nat × α)
  | [] => acc
  | (k, v) :: rest => emplaceAll (emplace acc k v) rest

/-- The frame reader of LoadFromFile. -/
def readFrame (s : ByteStream) : FrameData × ByteStream :=
  let (num, s₁) := ReadUInt64 s
  let (st, s₂) := ReadNanos s₁
  let (en, s₃) := ReadNanos s₂
  (⟨num, st, en⟩, s₃)

/-- The tag reader of LoadFromFile (the debug-only assert i == tagID is a
check, not semantics). -/
def readTag (s : ByteStream) : (Nat × TagNameAndColor) × ByteStream :=
  let (tagID, s₁) := ReadUInt32 s
  let (name, s₂) := ReadString s₁
  let (r, s₃) := ReadUInt8 s₂
  let (g, s₄) := ReadUInt8 s₃
  let (b, s₅) := ReadUInt8 s₄
  let (a, s₆) := ReadUInt8 s₅
  ((tagID, ⟨name, ⟨r, g, b, a⟩⟩), s₆)

/-- The scope reader of LoadFromFile: the entry is keyed by the key read from
the record. -/
def readScope (s : ByteStream) : (Nat × ScopeInfo) × ByteStream :=
  let (key, s₁) := ReadUInt32 s
  let (tag, s₂) := ReadUInt32 s₁
  let (name, s₃) := ReadString s₂
  let (functionName, s₄) := ReadString s₃
  let (fileName, s₅) := ReadString s₄
  let (lineNumber, s₆) := ReadUInt32 s₅
  ((key, ⟨key, tag, name, functionName, fileName, lineNumber⟩), s₆)

/-- The event reader of LoadFromFile. When the file announces cookies but the
build has none, a u64 is read and discarded per event. -/
def readEvent (withCookie : Bool) (s : ByteStream) : RecordedEvent × ByteStream :=
  let (key, s₁) := ReadUInt32 s
  let (depth, s₂) := ReadInt32 s₁
  let (start, s₃) := ReadNanos s₂
  let (en, s₄) := ReadNanos s₃
  if withCookie then
    let (_, s₅) := ReadUInt64 s₄
    (⟨key, depth, start, en⟩, s₅)
  else
    (⟨key, depth, start, en⟩, s₄)

/-- One thread's event-queue reader of LoadFromFile. -/
def readThreadEvents (withCookie : Bool) (s : ByteStream) :
    List RecordedEvent × ByteStream :=
  let (n, s₁) := ReadUInt64 s
  readCount n (readEvent withCookie) s₁

/-- ProfilerResults::LoadFromFile on the bytes of an already-opened file
(ThreadProfiler.hpp lines 1172-1288): check the four magic bytes and the
version with short-circuiting gets, read the three flag bytes (the int from
get() converts to bool as nonzero), then read every section. After the
header the stream state is never checked again. -/
def loadBytes (bytes : List Nat) : Option ProfilerResults :=
  let s₀ : ByteStream := ⟨bytes, false⟩
  let (c₁, s₁) := stGet s₀
  if c₁ ≠ 73 then none else
  let (c₂, s₂) := stGet s₁
  if c₂ ≠ 89 then none else
  let (c₃, s₃) := stGet s₂
  if c₃ ≠ 70 then none else
  let (c₄, s₄) := stGet s₃
  if c₄ ≠ 82 then none else
  let (v, s₅) := stGet s₄
  if v ≠ 1 then none else
  let (fdm, s₆) := stGet s₅
  let (anyR, s₇) := stGet s₆
  let (wc, s₈) := stGet s₇
  let withCookie := wc ≠ 0
  let (threadCount, s₉) := ReadUInt64 s₈
  let (names, s₁₀) := readCount threadCount ReadString s₉
  let (frameCount, s₁₁) := ReadUInt64 s₁₀
  let (frames, s₁₂) := readCount frameCount readFrame s₁₁
  let (tagCount, s₁₃) := ReadUInt64 s₁₂
  let (tagList, s₁₄) := readCount tagCount readTag s₁₃
  let (scopeCount, s₁₅) := ReadUInt64 s₁₄
  let (scopeList, s₁₆) := readCount scopeCount readScope s₁₅
  let (evss, _) := readCount threadCount (readThreadEvents withCookie) s₁₆
  some
    { frames := frames
      scopes := emplaceAll [] scopeList
      tags := emplaceAll [] tagList
      events := evss
      threadNames := names
      frameDataMissing := fdm ≠ 0
      anyRecords := anyR ≠ 0
      withCookie := withCookie }

/-- ProfilerResults::LoadFromFile including the open check: an unopenable file
is none in, none out. -/
def LoadFromFile (file : Option (List Nat)) : Option ProfilerResults :=
  match file with
  | none => none
  | some bytes => loadBytes bytes

/-! ## Thread registry (ThreadIDAssigner, GetCurrentThreadID, friends) -/

/-- IYF_THREAD_PROFILER_MAX_THREAD_COUNT with the default settings. -/
def maxThreadCount : Nat := 16

/-- Decimal digits of a natural number as ASCII bytes. -/
def natDecimal (n : Nat) : List Nat :=
  if h : n < 10 then [48 + n]
  else natDecimal (n / 10) ++ [48 + n % 10]
decreasing_by
  exact Nat.div_lt_self (by omega) (by omega)

/-- The byte string "Thread" followed by the decimal id — the automatically
generated thread name. -/
def defaultName (i : Nat) : List Nat := [84, 104, 114, 101, 97, 100] ++ natDecimal i

/-- The names array as initialized by the ThreadIDAssigner constructor. -/
def initNames : List (List Nat) :=
  (List.range maxThreadCount).map defaultName

/-- The error thrown when more threads than allowed register. -/
inductive RegError where
  | tooManyThreads
deriving DecidableEq, Repr

/-- The thread_local CurrentThreadID / CurrentThreadName pair of one thread
(tlId = none is the emptyID sentinel). -/
structure ThreadLocalSt where
  tlId : Option Nat
  tlName : List Nat
deriving DecidableEq, Repr

/-- ThreadIDAssigner::assignNext: under the registry mutex, store the counter
into the thread-local id, then throw TooManyThreads if it reaches the
capacity (leaving the counter, the names array and the thread-local name
untouched); otherwise advance the counter and record the chosen name (the
given one, or a generated default when it is null or empty) both in the
names array and in the thread-local name. -/
def assignNext (name : Option (List Nat)) (st : Registry) (tl : ThreadLocalSt) :
    Registry × ThreadLocalSt × Option RegError :=
  let tl₁ := { tl with tlId := some st.counter }
  if st.counter ≥ maxThreadCount then
    (st, tl₁, some RegError.tooManyThreads)
  else
    let chosen :=
      match name with
      | none => defaultName st.counter
      | some s => if s.isEmpty then defaultName st.counter else s
    (⟨st.names.set st.counter chosen, st.counter + 1⟩,
     ⟨some st.counter, chosen⟩, none)

/-- GetCurrentThreadID: return the cached thread-local id, or register the
thread first. A thrown TooManyThreads propagates but the mutated
thread-local id survives. -/
def GetCurrentThreadID (st : Registry) (tl : ThreadLocalSt) :
    Registry × ThreadLocalSt × Except RegError Nat :=
  match tl.tlId with
  | some id => (st, tl, Except.ok id)
  | none =>
    let (st₁, tl₁, err) := assignNext none st tl
    match err with
    | some e => (st₁, tl₁, Except.error e)
    | none => (st₁, tl₁, Except.ok (tl₁.tlId.getD 0))

/-- GetCurrentThreadName: same lazy registration, returning the thread-local
name. -/
def GetCurrentThreadName (st : Registry) (tl : ThreadLocalSt) :
    Registry × ThreadLocalSt × Except RegError (List Nat) :=
  match tl.tlId with
  | some _ => (st, tl, Except.ok tl.tlName)
  | none =>
    let (st₁, tl₁, err) := assignNext none st tl
    match err with
    | some e => (st₁, tl₁, Except.error e)
    | none => (st₁, tl₁, Except.ok tl₁.tlName)

/-- One registration by a brand-new thread (fresh thread-locals). -/
def registerFresh (st : Registry) : Registry × ThreadLocalSt × Except RegError Nat :=
  GetCurrentThreadID st ⟨none, []⟩

/-- The registry after k distinct threads have each called
GetCurrentThreadID once, starting from the freshly constructed assigner. -/
def registryAfter : Nat → Registry
  | 0 => ⟨initNames, 0⟩
  | k + 1 => (registerFresh (registryAfter k)).1

/-! ## Barrier (ThreadPool.hpp) -/

/-- The errors the Barrier can throw. -/
inductive BarrierError where
  | invalidArgument
  | overCompletion
deriving DecidableEq, Repr

/-- Barrier::Barrier: a non-negative task count, or std::logic_error. The
state is the remaining count. -/
def barrierNew (taskCount : Int) : Except BarrierError Int :=
  if taskCount < 0 then Except.error BarrierError.invalidArgument
  else Except.ok taskCount

/-- Barrier::notifyCompleted: decrement the counter under the mutex; if it
went below zero throw OverCompletion (the decrement persists and the
condition variable is NOT notified, since the throw leaves the function
first); otherwise notify the condition variable. Returns
(new count, failed, signalled). -/
def notifyCompleted (taskCount : Int) : Int × Bool × Bool :=
  let c := taskCount - 1
  if c < 0 then (c, true, false) else (c, false, true)

/-- The barrier counter after k notifyCompleted calls. -/
def counterAfter (taskCount : Int) : Nat → Int
  | 0 => taskCount
  | k + 1 => (notifyCompleted (counterAfter taskCount k)).1

/-- Barrier::waitForAll's wake-up predicate: the wait ends exactly when the
counter is zero. -/
def waitForAllWakes (taskCount : Int) : Bool := taskCount == 0

/-! ## Thread pool (ThreadPool.hpp) — an interleaving small-step semantics

Tasks are identifiers (Nat). Each worker's observable control point is:
waiting on the condition variable / executing a popped task / exited from
the loop. The mutex makes pop-front, task submission and the running-flag
write atomic; executing a task happens outside the lock, as a separate step.
The ghost fields enqueued/executed record history. -/

/-- The observable control state of one pool worker. -/
inductive WStatus where
  | waiting
  | running (t : Nat)
  | exited
deriving DecidableEq, Repr

/-- The shared state of the ThreadPool plus ghost history. -/
structure PoolState where
  queue : List Nat
  running : Bool
  enqueued : List Nat
  executed : List Nat
  workers : List WStatus
deriving DecidableEq, Repr

/-- The tasks currently being executed by some worker. -/
def runningTasks (ws : List WStatus) : List Nat :=
  ws.filterMap fun w =>
    match w with
    | WStatus.running t => some t
    | _ => none

/-- One atomic step of the pool system.

addTask: a client thread submits under the mutex; checkRunning has passed.
shutdown: the destructor sets running to false under the mutex.
popTask: a worker woken with a nonempty queue moves the front task out
(lines 385-386) and will execute it.
finishTask: the worker finishes executing its task (line 391).
exitWorker: a worker woken with running == false and an empty queue breaks
out of its loop (lines 380-382). -/
inductive PoolStep : PoolState → PoolState → Prop where
  | addTask (s : PoolState) (t : Nat) (h : s.running = true) :
      PoolStep s { s with queue := s.queue ++ [t], enqueued := s.enqueued ++ [t] }
  | shutdown (s : PoolState) :
      PoolStep s { s with running := false }
  | popTask (q E X : List Nat) (r : Bool) (t : Nat) (pre post : List WStatus) :
      PoolStep ⟨t :: q, r, E, X, pre ++ WStatus.waiting :: post⟩
               ⟨q, r, E, X, pre ++ WStatus.running t :: post⟩
  | finishTask (q E X : List Nat) (r : Bool) (t : Nat) (pre post : List WStatus) :
      PoolStep ⟨q, r, E, X, pre ++ WStatus.running t :: post⟩
               ⟨q, r, E, X ++ [t], pre ++ WStatus.waiting :: post⟩
  | exitWorker (E X : List Nat) (pre post : List WStatus) :
      PoolStep ⟨[], false, E, X, pre ++ WStatus.waiting :: post⟩
               ⟨[], false, E, X, pre ++ WStatus.exited :: post⟩

/-- The pool as constructed: empty queue, running, n idle workers. -/
def initPool (n : Nat) : PoolState :=
  ⟨[], true, [], [], List.replicate n WStatus.waiting⟩

/-- A pool state reachable from construction with n workers. -/
def PoolReachable (n : Nat) (s : PoolState) : Prop :=
  Relation.ReflTransGen PoolStep (initPool n) s

/-! ## Well-formedness: the constraints the C++ machine types impose on a
bundle, plus the one constraint they do not (string lengths below 2^16). -/

/-- A value representable by std::chrono::nanoseconds (int64). -/
def inI64 (z : Int) : Prop := -(2 ^ 63) ≤ z ∧ z < 2 ^ 63

/-- A value representable by std::int32_t. -/
def inI32 (z : Int) : Prop := -(2 ^ 31) ≤ z ∧ z < 2 ^ 31

/-- A string whose length survives the uint16 cast in WriteString. -/
def wfStr (s : List Nat) : Prop := s.length < 65536

/-- An association list with pairwise distinct keys (automatic for
std::unordered_map). -/
def NodupKeys {α : Type} (m : List (Nat × α)) : Prop := (m.map Prod.fst).Nodup

/-- A frame whose fields fit their serialized widths. -/
def WFFrame (f : FrameData) : Prop :=
  f.number < 2 ^ 64 ∧ inI64 f.start ∧ inI64 f.endTime

/-- A tag entry whose fields fit their serialized widths. -/
def WFTagEntry (t : Nat × TagNameAndColor) : Prop :=
  t.1 < 2 ^ 32 ∧ wfStr t.2.name ∧
  t.2.color.r < 256 ∧ t.2.color.g < 256 ∧ t.2.color.b < 256 ∧ t.2.color.a < 256

/-- A scope entry whose fields fit their serialized widths and whose map key
coincides with the ScopeInfo's own key (guaranteed by insertScopeInfo;
writeToFile serializes the inner key and LoadFromFile re-keys by it). -/
def WFScopeEntry (s : Nat × ScopeInfo) : Prop :=
  s.1 = s.2.key ∧ s.2.key < 2 ^ 32 ∧ s.2.tag < 2 ^ 32 ∧
  wfStr s.2.name ∧ wfStr s.2.functionName ∧ wfStr s.2.fileName ∧
  s.2.lineNumber < 2 ^ 32

/-- An event whose fields fit their serialized widths. -/
def WFEvent (e : RecordedEvent) : Prop :=
  e.key < 2 ^ 32 ∧ inI32 e.depth ∧ inI64 e.start ∧ inI64 e.endTime

/-- A bundle as the snapshot extractor shapes it: no cookies in this build,
one name per event queue, machine-type bounds on every field, unique map
keys — and additionally every stored string shorter than 2^16 bytes, the one
condition the extractor does NOT enforce. -/
def WFResults (B : ProfilerResults) : Prop :=
  B.withCookie = false ∧
  B.threadNames.length = B.events.length ∧
  B.threadNames.length < 2 ^ 64 ∧
  B.frames.length < 2 ^ 64 ∧
  B.tags.length < 2 ^ 64 ∧
  B.scopes.length < 2 ^ 64 ∧
  (∀ s ∈ B.threadNames, wfStr s) ∧
  (∀ f ∈ B.frames, WFFrame f) ∧
  (∀ t ∈ B.tags, WFTagEntry t) ∧
  (∀ sc ∈ B.scopes, WFScopeEntry sc) ∧
  (∀ evs ∈ B.events, evs.length < 2 ^ 64 ∧ ∀ e ∈ evs, WFEvent e) ∧
  NodupKeys B.scopes ∧
  NodupKeys B.tags

/-! ## Spec-side definitions (from the specification's words, for comparison
with what the code computes) -/

/-- The minimum start time over all recorded events of a snapshot, as the
spec describes the synthetic frame's start (folded from nanoseconds::max). -/
def minStartAll (evss : List (List RecordedEvent)) : Int :=
  (evss.flatten.map RecordedEvent.start).foldl min (2 ^ 63 - 1)

/-- The maximum start time over all recorded events of a snapshot, as the
spec describes the synthetic frame's end (folded from nanoseconds::min). -/
def maxStartAll (evss : List (List RecordedEvent)) : Int :=
  (evss.flatten.map RecordedEvent.start).foldl max (-(2 ^ 63))

/-- Rewrite every event end and every frame end of a bundle by arbitrary
functions, leaving all other data alone. -/
def remapEnds (f : RecordedEvent → Int) (g : FrameData → Int) (B : ProfilerResults) :
    ProfilerResults :=
  { B with
    events := B.events.map fun evs => evs.map fun e => { e with endTime := f e }
    frames := B.frames.map fun fr => { fr with endTime := g fr } }

/-! ## Concrete inputs used by counterexamples and witnesses -/

/-- A thread name of 65536 'a' bytes: assignable through AssignThreadName,
but its length does not survive WriteString's uint16 cast. -/
def longName : List Nat := List.replicate 65536 97

/-- A registry holding one registered thread whose name is longName. -/
def regLong : Registry := ⟨[longName], 1⟩

/-- A registry holding one registered thread with a short name. -/
def regOne : Registry := ⟨[[77]], 1⟩

/-- A quiescent profiler state with one complete frame on the ledger. -/
def stOneFrame : ProfilerState :=
  ⟨false, [], [defaultThreadData], 1, [⟨0, 3, 9⟩]⟩

/-- The bundle the extractor produces from stOneFrame under regLong: its only
thread name is 65536 bytes long. -/
def bundleLong : ProfilerResults := getResults stOneFrame regLong 99

/-- A profiler state whose frame ledger is empty while one thread committed
two nested scopes: the inner scope (start 20) was committed before the outer
one (start 10), so the completed-events queue is not ordered by start. -/
def stNested : ProfilerState :=
  ⟨false, [], [⟨[], [⟨2, 1, 20, 22⟩, ⟨1, 0, 10, 25⟩], -1⟩], 0, []⟩

/-- Pool trace: two idle workers, one task enqueued. -/
def poolA : PoolState := ⟨[0], true, [0], [], [WStatus.waiting, WStatus.waiting]⟩

/-- Pool trace: the destructor has set running to false. -/
def poolB : PoolState := ⟨[0], false, [0], [], [WStatus.waiting, WStatus.waiting]⟩

/-- Pool trace: worker 0 has popped the task and is executing it. -/
def poolC : PoolState := ⟨[], false, [0], [], [WStatus.running 0, WStatus.waiting]⟩

/-- Pool trace: worker 1 has exited while worker 0 still executes the task. -/
def poolD : PoolState := ⟨[], false, [0], [], [WStatus.running 0, WStatus.exited]⟩

/-- Pool trace: worker 0 finished the task. -/
def poolE : PoolState := ⟨[], false, [0], [0], [WStatus.waiting, WStatus.exited]⟩

/-- A small well-formed bundle of the shape the extractor produces. -/
def bundleSmall : ProfilerResults :=
  ⟨[⟨0, 3, 9⟩], [(7, ⟨7, 0, [97], [98], [99], 12⟩)],
   [(0, ⟨untaggedName, ⟨255, 255, 255, 255⟩⟩)], [[⟨7, 0, 4, 6⟩]], [[77]],
   false, true, false⟩

/-- Pool trace: worker 0 exited as well; the pool is fully drained. -/
def poolF : PoolState := ⟨[], false, [0], [0], [WStatus.exited, WStatus.exited]⟩

/-! ## Helper lemmas: serialization primitives -/

lemma natToBytes_length (w n : Nat) : (natToBytes w n).length = w := by
  induction w generalizing n with
  | zero => rfl
  | succ w ih => simp [natToBytes, ih]

lemma bytesToNat_natToBytes (w n : Nat) : bytesToNat (natToBytes w n) = n % 256 ^ w := by
  induction w generalizing n with
  | zero => simp [natToBytes, bytesToNat, Nat.mod_one]
  | succ w ih =>
    simp only [natToBytes, bytesToNat, ih]
    rw [pow_succ, mul_comm (256 ^ w) 256, Nat.mod_mul]
    omega

lemma stGet_cons (b : Nat) (rest : List Nat) :
    stGet ⟨b :: rest, false⟩ = ((b : Int), ⟨rest, false⟩) := rfl

lemma stRead_exact (bs rest : List Nat) :
    stRead bs.length ⟨bs ++ rest, false⟩ = (bs, ⟨rest, false⟩) := by
  simp only [stRead, Bool.false_eq_true, if_false, List.length_append]
  rw [if_pos (Nat.le_add_right _ _), List.take_left, List.drop_left]

lemma stRead_exact' (w : Nat) (bs rest : List Nat) (h : bs.length = w) :
    stRead w ⟨bs ++ rest, false⟩ = (bs, ⟨rest, false⟩) := by
  subst h
  exact stRead_exact bs rest

lemma toInt64_intToTwos (z : Int) (h1 : -(2 ^ 63) ≤ z) (h2 : z < 2 ^ 63) :
    toInt64 (intToTwos 64 z) = z := by
  unfold toInt64 intToTwos
  rcases le_or_lt 0 z with hz | hz
  · have he : z.emod (2 ^ 64) = z := Int.emod_eq_of_lt hz (by omega)
    rw [he]
    split <;> omega
  · have h1' : (z + (2 : Int) ^ 64 * 1) % ((2 : Int) ^ 64) = z % ((2 : Int) ^ 64) :=
      Int.add_mul_emod_self_left z ((2 : Int) ^ 64) 1
    have h2' : (z + (2 : Int) ^ 64) % ((2 : Int) ^ 64) = z + 2 ^ 64 :=
      Int.emod_eq_of_lt (by omega) (by omega)
    have he : z.emod (2 ^ 64) = z + 2 ^ 64 := by
      show z % ((2 : Int) ^ 64) = z + 2 ^ 64
      rw [mul_one] at h1'
      rw [← h1', h2']
    rw [he]
    split <;> omega

lemma toInt32_intToTwos (z : Int) (h1 : -(2 ^ 31) ≤ z) (h2 : z < 2 ^ 31) :
    toInt32 (intToTwos 32 z) = z := by
  unfold toInt32 intToTwos
  rcases le_or_lt 0 z with hz | hz
  · have he : z.emod (2 ^ 32) = z := Int.emod_eq_of_lt hz (by omega)
    rw [he]
    split <;> omega
  · have h1' : (z + (2 : Int) ^ 32 * 1) % ((2 : Int) ^ 32) = z % ((2 : Int) ^ 32) :=
      Int.add_mul_emod_self_left z ((2 : Int) ^ 32) 1
    have h2' : (z + (2 : Int) ^ 32) % ((2 : Int) ^ 32) = z + 2 ^ 32 :=
      Int.emod_eq_of_lt (by omega) (by omega)
    have he : z.emod (2 ^ 32) = z + 2 ^ 32 := by
      show z % ((2 : Int) ^ 32) = z + 2 ^ 32
      rw [mul_one] at h1'
      rw [← h1', h2']
    rw [he]
    split <;> omega

lemma intToTwos_lt (bits : Nat) (z : Int) : intToTwos bits z < 2 ^ bits := by
  unfold intToTwos
  show (z % ((2 : Int) ^ bits)).toNat < 2 ^ bits
  have hc : ((2 : Int) ^ bits) = ((2 ^ bits : Nat) : Int) := by push_cast; ring
  have h2 : z % ((2 : Int) ^ bits) < (2 : Int) ^ bits :=
    Int.emod_lt_of_pos z (by positivity : (0 : Int) < (2 : Int) ^ bits)
  have h3 : 0 ≤ z % ((2 : Int) ^ bits) :=
    Int.emod_nonneg z (by positivity : ((2 : Int) ^ bits) ≠ 0)
  rw [hc] at h2 h3 ⊢
  omega

lemma ReadUInt64_round (n : Nat) (h : n < 2 ^ 64) (rest : List Nat) :
    ReadUInt64 ⟨WriteUInt64 n ++ rest, false⟩ = (n, ⟨rest, false⟩) := by
  unfold ReadUInt64 WriteUInt64
  rw [stRead_exact' 8 _ rest (natToBytes_length 8 n)]
  dsimp only
  rw [bytesToNat_natToBytes, Nat.mod_eq_of_lt (by norm_num at h ⊢; omega)]

lemma ReadUInt32_round (n : Nat) (h : n < 2 ^ 32) (rest : List Nat) :
    ReadUInt32 ⟨WriteUInt32 n ++ rest, false⟩ = (n, ⟨rest, false⟩) := by
  unfold ReadUInt32 WriteUInt32
  rw [stRead_exact' 4 _ rest (natToBytes_length 4 n)]
  dsimp only
  rw [bytesToNat_natToBytes, Nat.mod_eq_of_lt (by norm_num at h ⊢; omega)]

lemma ReadUInt8_round (n : Nat) (h : n < 256) (rest : List Nat) :
    ReadUInt8 ⟨WriteUInt8 n ++ rest, false⟩ = (n, ⟨rest, false⟩) := by
  unfold ReadUInt8 WriteUInt8
  rw [stRead_exact' 1 _ rest (natToBytes_length 1 n)]
  dsimp only
  rw [bytesToNat_natToBytes, Nat.mod_eq_of_lt (by norm_num; omega)]

lemma ReadNanos_round (z : Int) (h : inI64 z) (rest : List Nat) :
    ReadNanos ⟨WriteNanos z ++ rest, false⟩ = (z, ⟨rest, false⟩) := by
  unfold ReadNanos WriteNanos
  rw [stRead_exact' 8 _ rest (natToBytes_length 8 _)]
  dsimp only
  rw [bytesToNat_natToBytes,
    Nat.mod_eq_of_lt (by have := intToTwos_lt 64 z; norm_num at this ⊢; omega),
    toInt64_intToTwos z h.1 h.2]

lemma ReadInt32_round (z : Int) (h : inI32 z) (rest : List Nat) :
    ReadInt32 ⟨WriteInt32 z ++ rest, false⟩ = (z, ⟨rest, false⟩) := by
  unfold ReadInt32 WriteInt32
  rw [stRead_exact' 4 _ rest (natToBytes_length 4 _)]
  dsimp only
  rw [bytesToNat_natToBytes,
    Nat.mod_eq_of_lt (by have := intToTwos_lt 32 z; norm_num at this ⊢; omega),
    toInt32_intToTwos z h.1 h.2]

lemma ReadString_round (str : List Nat) (h : wfStr str) (rest : List Nat) :
    ReadString ⟨WriteString str ++ rest, false⟩ = (str, ⟨rest, false⟩) := by
  unfold ReadString WriteString
  rw [Nat.mod_eq_of_lt h, List.take_length, List.append_assoc]
  rw [stRead_exact' 2 _ (str ++ rest) (natToBytes_length 2 _)]
  dsimp only
  rw [bytesToNat_natToBytes, Nat.mod_eq_of_lt (by norm_num; exact h)]
  exact stRead_exact' str.length str rest rfl

lemma readCount_round {α : Type} (rd : ByteStream → α × ByteStream) (wr : α → List Nat)
    (xs : List α) (h : ∀ x ∈ xs, ∀ rest, rd ⟨wr x ++ rest, false⟩ = (x, ⟨rest, false⟩)) :
    ∀ rest, readCount xs.length rd ⟨(xs.map wr).flatten ++ rest, false⟩ = (xs, ⟨rest, false⟩) := by
  induction xs with
  | nil => intro rest; rfl
  | cons x xs ih =>
    intro rest
    simp only [List.length_cons, List.map_cons, List.flatten_cons, List.append_assoc, readCount]
    rw [h x (List.mem_cons_self x xs)]
    rw [ih (fun y hy rest₂ => h y (List.mem_cons_of_mem x hy) rest₂)]

/-! ## Helper lemmas: association lists and the comparison operators -/

lemma assocFind_eq_none {α : Type} (k : Nat) (m : List (Nat × α)) :
    assocFind k m = none ↔ k ∉ m.map Prod.fst := by
  induction m with
  | nil => simp [assocFind]
  | cons kv rest ih =>
    obtain ⟨k₂, v⟩ := kv
    by_cases hk : k₂ = k
    · subst hk
      simp [assocFind]
    · simp [assocFind, hk, ih, Ne.symm hk]

lemma assocFind_of_nodup_mem {α : Type} (m : List (Nat × α)) (hm : NodupKeys m)
    (k : Nat) (v : α) (hmem : (k, v) ∈ m) : assocFind k m = some v := by
  induction m with
  | nil => cases hmem
  | cons kv rest ih =>
    obtain ⟨k₂, v₂⟩ := kv
    unfold NodupKeys at hm
    simp only [List.map_cons, List.nodup_cons] at hm
    rcases List.mem_cons.mp hmem with heq | htail
    · simp only [Prod.mk.injEq] at heq
      obtain ⟨hk, hv⟩ := heq
      subst hk
      subst hv
      simp [assocFind]
    · have hk : k₂ ≠ k := by
        intro hk
        subst hk
        exact hm.1 (List.mem_map.mpr ⟨(k₂, v), htail, rfl⟩)
      simp only [assocFind, if_neg hk]
      exact ih hm.2 htail

lemma emplaceAll_of_nodup {α : Type} (l acc : List (Nat × α))
    (h : NodupKeys (acc ++ l)) : emplaceAll acc l = acc ++ l := by
  induction l generalizing acc with
  | nil => simp [emplaceAll]
  | cons kv rest ih =>
    obtain ⟨k, v⟩ := kv
    have hknot : k ∉ acc.map Prod.fst := by
      unfold NodupKeys at h
      rw [List.map_append, List.map_cons] at h
      rcases List.nodup_append.mp h with ⟨_, _, hdisj⟩
      intro hk
      exact hdisj hk (List.mem_cons_self _ _)
    have hfind : assocFind k acc = none := (assocFind_eq_none k acc).mpr hknot
    simp only [emplaceAll, emplace, hfind]
    rw [ih (acc ++ [(k, v)]) (by simpa using h)]
    simp

lemma listEqBy_refl {α : Type} (eq : α → α → Bool) (l : List α)
    (h : ∀ x ∈ l, eq x x = true) : listEqBy eq l l = true := by
  induction l with
  | nil => rfl
  | cons x xs ih =>
    simp only [listEqBy, Bool.and_eq_true]
    exact ⟨h x (List.mem_cons_self x xs), ih fun y hy => h y (List.mem_cons_of_mem x hy)⟩

lemma listEqBy_map {α : Type} (eq : α → α → Bool) (f : α → α) (l : List α)
    (h : ∀ x ∈ l, eq (f x) x = true) : listEqBy eq (l.map f) l = true := by
  induction l with
  | nil => rfl
  | cons x xs ih =>
    simp only [List.map_cons, listEqBy, Bool.and_eq_true]
    exact ⟨h x (List.mem_cons_self x xs), ih fun y hy => h y (List.mem_cons_of_mem x hy)⟩

lemma mapEqBy_refl {α : Type} (veq : α → α → Bool) (m : List (Nat × α))
    (hm : NodupKeys m) (hv : ∀ kv ∈ m, veq kv.2 kv.2 = true) : mapEqBy veq m m = true := by
  unfold mapEqBy
  simp only [beq_self_eq_true, Bool.true_and, List.all_eq_true]
  intro kv hkv
  rw [assocFind_of_nodup_mem m hm kv.1 kv.2 hkv]
  exact hv kv hkv

lemma recordedEventEq_refl (e : RecordedEvent) : recordedEventEq e e = true := by
  simp [recordedEventEq]

lemma frameDataEq_refl (f : FrameData) : frameDataEq f f = true := by
  simp [frameDataEq]

lemma scopeInfoEq_refl (s : ScopeInfo) : scopeInfoEq s s = true := by
  simp [scopeInfoEq]

lemma tagEq_refl (t : TagNameAndColor) : tagEq t t = true := by
  simp [tagEq, scopeColorEq]

lemma profilerResultsEq_refl (B : ProfilerResults)
    (hs : NodupKeys B.scopes) (ht : NodupKeys B.tags) :
    profilerResultsEq B B = true := by
  unfold profilerResultsEq
  simp only [Bool.and_eq_true, beq_self_eq_true, and_true]
  refine ⟨⟨⟨listEqBy_refl _ _ fun f _ => frameDataEq_refl f,
    mapEqBy_refl _ _ hs fun kv _ => scopeInfoEq_refl kv.2⟩,
    mapEqBy_refl _ _ ht fun kv _ => tagEq_refl kv.2⟩,
    listEqBy_refl _ _ fun evs _ => listEqBy_refl _ _ fun e _ => recordedEventEq_refl e⟩

/-! ## Helper lemmas: record-level round trips -/

lemma readFrame_round (f : FrameData) (h : WFFrame f) (rest : List Nat) :
    readFrame ⟨writeFrame f ++ rest, false⟩ = (f, ⟨rest, false⟩) := by
  obtain ⟨num, st, en⟩ := f
  obtain ⟨h1, h2, h3⟩ := h
  unfold readFrame writeFrame
  simp only [List.append_assoc]
  rw [ReadUInt64_round _ h1]
  dsimp only
  rw [ReadNanos_round _ h2]
  dsimp only
  rw [ReadNanos_round _ h3]

lemma readTag_round (t : Nat × TagNameAndColor) (h : WFTagEntry t) (rest : List Nat) :
    readTag ⟨writeTag t ++ rest, false⟩ = (t, ⟨rest, false⟩) := by
  obtain ⟨k, name, r, g, b, a⟩ := t
  obtain ⟨h1, h2, h3, h4, h5, h6⟩ := h
  unfold readTag writeTag
  simp only [List.append_assoc]
  rw [ReadUInt32_round _ h1]
  dsimp only
  rw [ReadString_round _ h2]
  dsimp only
  rw [ReadUInt8_round _ h3]
  dsimp only
  rw [ReadUInt8_round _ h4]
  dsimp only
  rw [ReadUInt8_round _ h5]
  dsimp only
  rw [ReadUInt8_round _ h6]

lemma readScope_round (s : Nat × ScopeInfo) (h : WFScopeEntry s) (rest : List Nat) :
    readScope ⟨writeScope s ++ rest, false⟩ = (s, ⟨rest, false⟩) := by
  obtain ⟨k, key, tag, name, fn, file, line⟩ := s
  obtain ⟨hk, h1, h2, h3, h4, h5, h6⟩ := h
  dsimp only at hk
  subst hk
  unfold readScope writeScope
  simp only [List.append_assoc]
  rw [ReadUInt32_round _ h1]
  dsimp only
  rw [ReadUInt32_round _ h2]
  dsimp only
  rw [ReadString_round _ h3]
  dsimp only
  rw [ReadString_round _ h4]
  dsimp only
  rw [ReadString_round _ h5]
  dsimp only
  rw [ReadUInt32_round _ h6]

set_option maxHeartbeats 1600000 in
lemma readEvent_round (e : RecordedEvent) (h : WFEvent e) (rest : List Nat) :
    readEvent false ⟨writeEvent e ++ rest, false⟩ = (e, ⟨rest, false⟩) := by
  obtain ⟨key, depth, st, en⟩ := e
  obtain ⟨h1, h2, h3, h4⟩ := h
  unfold readEvent writeEvent
  simp only [List.append_assoc, Bool.false_eq_true, if_false]
  rw [ReadUInt32_round _ h1]
  dsimp only
  rw [ReadInt32_round _ h2]
  dsimp only
  rw [ReadNanos_round _ h3]
  dsimp only
  rw [ReadNanos_round _ h4]

lemma readThreadEvents_round (evs : List RecordedEvent) (hlen : evs.length < 2 ^ 64)
    (h : ∀ e ∈ evs, WFEvent e) (rest : List Nat) :
    readThreadEvents false ⟨writeThreadEvents evs ++ rest, false⟩ = (evs, ⟨rest, false⟩) := by
  unfold readThreadEvents writeThreadEvents
  simp only [List.append_assoc]
  rw [ReadUInt64_round _ hlen]
  dsimp only
  exact readCount_round (readEvent false) writeEvent evs
    (fun e he rest₂ => readEvent_round e (h e he) rest₂) rest

lemma readCount_round_nil {α : Type} (rd : ByteStream → α × ByteStream) (wr : α → List Nat)
    (xs : List α) (h : ∀ x ∈ xs, ∀ rest, rd ⟨wr x ++ rest, false⟩ = (x, ⟨rest, false⟩)) :
    readCount xs.length rd ⟨(xs.map wr).flatten, false⟩ = (xs, ⟨[], false⟩) := by
  have h₂ := readCount_round rd wr xs h []
  rwa [List.append_nil] at h₂

lemma flagRound (b : Bool) : (decide ((((boolByte b : Nat)) : Int) ≠ 0)) = b := by
  cases b <;> rfl

set_option maxHeartbeats 4000000 in
/-- C1 (amended): for every bundle B of the shape the snapshot extractor
produces (withCookie false, one name per queue, machine-type bounds, unique
map keys) in which additionally every stored string is shorter than 65536
bytes, writing B with writeToFile and reading the file back with LoadFromFile
returns some bundle equal to B — indeed exactly B — under the bundle's own
operator==. The string-length side condition is forced by the
counterexample: WriteString truncates lengths to uint16. -/
theorem c1_round_trip (B : ProfilerResults) (h : WFResults B) :
    LoadFromFile (some (writeToFile B)) = some B ∧ profilerResultsEq B B = true := by
  obtain ⟨hwc, hlen, hn64, hf64, ht64, hs64, hstr, hfr, htg, hsc, hev, hndsc, hndtg⟩ := h
  refine ⟨?_, profilerResultsEq_refl B hndsc hndtg⟩
  show loadBytes (writeToFile B) = some B
  unfold writeToFile
  rw [hwc]
  unfold loadBytes
  dsimp only
  rw [stGet_cons]
  dsimp only
  rw [if_neg (by decide : ¬ ((((73 : Nat) : Int)) ≠ 73))]
  rw [stGet_cons]
  dsimp only
  rw [if_neg (by decide : ¬ ((((89 : Nat) : Int)) ≠ 89))]
  rw [stGet_cons]
  dsimp only
  rw [if_neg (by decide : ¬ ((((70 : Nat) : Int)) ≠ 70))]
  rw [stGet_cons]
  dsimp only
  rw [if_neg (by decide : ¬ ((((82 : Nat) : Int)) ≠ 82))]
  rw [stGet_cons]
  dsimp only
  rw [if_neg (by decide : ¬ ((((1 : Nat) : Int)) ≠ 1))]
  rw [stGet_cons]
  dsimp only
  rw [stGet_cons]
  dsimp only
  rw [stGet_cons]
  dsimp only
  simp only [List.append_assoc]
  rw [ReadUInt64_round _ hn64]
  dsimp only
  rw [readCount_round ReadString WriteString B.threadNames
    (fun s hs r => ReadString_round s (hstr s hs) r)]
  dsimp only
  rw [ReadUInt64_round _ hf64]
  dsimp only
  rw [readCount_round readFrame writeFrame B.frames
    (fun f hf r => readFrame_round f (hfr f hf) r)]
  dsimp only
  rw [ReadUInt64_round _ ht64]
  dsimp only
  rw [readCount_round readTag writeTag B.tags
    (fun t ht r => readTag_round t (htg t ht) r)]
  dsimp only
  rw [ReadUInt64_round _ hs64]
  dsimp only
  rw [readCount_round readScope writeScope B.scopes
    (fun sc hsc2 r => readScope_round sc (hsc sc hsc2) r)]
  dsimp only
  rw [flagRound false]
  rw [hlen]
  rw [readCount_round_nil (readThreadEvents false) writeThreadEvents B.events
    (fun evs hevs r => readThreadEvents_round evs (hev evs hevs).1 (hev evs hevs).2 r)]
  dsimp only
  rw [emplaceAll_of_nodup B.scopes [] hndsc, emplaceAll_of_nodup B.tags [] hndtg]
  rw [flagRound, flagRound]
  rw [← hwc]
  rfl

lemma longName_length : longName.length = 65536 := by
  unfold longName
  exact List.length_replicate 65536 97

lemma writeString_longName : WriteString longName = [0, 0] := by
  unfold WriteString
  rw [longName_length]
  norm_num [natToBytes]

lemma bundleLong_eq :
    bundleLong =
      ⟨[⟨0, 3, 9⟩], [], tagsTable, [[]], [longName], false, false, false⟩ := rfl

set_option maxRecDepth 8000 in
lemma writeToFile_bundleLong :
    writeToFile bundleLong =
      [73, 89, 70, 82, 1, 0, 0, 0,
       1, 0, 0, 0, 0, 0, 0, 0, 0, 0,
       1, 0, 0, 0, 0, 0, 0, 0,
       0, 0, 0, 0, 0, 0, 0, 0, 3, 0, 0, 0, 0, 0, 0, 0, 9, 0, 0, 0, 0, 0, 0, 0,
       1, 0, 0, 0, 0, 0, 0, 0,
       0, 0, 0, 0, 8, 0, 85, 110, 116, 97, 103, 103, 101, 100, 255, 255, 255, 255,
       0, 0, 0, 0, 0, 0, 0, 0,
       0, 0, 0, 0, 0, 0, 0, 0] := by
  rw [bundleLong_eq]
  unfold writeToFile
  dsimp only [List.map_cons, List.map_nil, List.flatten]
  rw [writeString_longName]
  decide

set_option maxRecDepth 8000 in
/-- C1 counterexample: the extractor can produce a bundle whose thread name
is 65536 bytes long (AssignThreadName copies arbitrary strings); writing it
and loading it back yields a bundle that compares UNEQUAL to the original,
because WriteString stores the length as uint16 (65536 mod 2^16 = 0) and the
name comes back empty. So the claim as stated — a round trip for every
extractor bundle — is false. -/
theorem c1_counterexample :
    (LoadFromFile (some (writeToFile bundleLong))).map
      (fun b => profilerResultsEq b bundleLong) = some false := by
  rw [writeToFile_bundleLong]
  rw [bundleLong_eq]
  decide
/-- C1 witness: a concrete small extractor-shaped bundle is well formed and
round-trips to itself. -/
theorem c1_round_trip_witness :
    WFResults bundleSmall ∧
    (LoadFromFile (some (writeToFile bundleSmall)) = some bundleSmall ∧
     profilerResultsEq bundleSmall bundleSmall = true) := by
  have hwf : WFResults bundleSmall := by
    unfold WFResults WFFrame WFTagEntry WFScopeEntry WFEvent wfStr inI64 inI32 NodupKeys
    decide
  exact ⟨hwf, c1_round_trip bundleSmall hwf⟩
/-- C2: LoadFromFile does return none for an unopenable file, a magic
mismatch, a wrong version byte, and a short read inside the 5 header bytes
(get() yields -1 there, failing the byte comparison). But a file truncated
immediately after the 5 header bytes — a short read in every later section —
is NOT detected: the stream state is never checked after the version byte,
and the loader returns some bundle whose flags were read from EOF, contrary
to the claim and to the function's own documentation. -/
theorem c2_short_read_not_detected :
    LoadFromFile none = none ∧
    loadBytes [73, 89, 70, 81, 1] = none ∧
    loadBytes [73, 89, 70, 82, 2] = none ∧
    loadBytes [73, 89, 70, 82] = none ∧
    loadBytes [73, 89, 70, 82, 1] = some ⟨[], [], [], [], [], true, true, true⟩ := by
  refine ⟨rfl, by decide, by decide, by decide, by decide⟩

lemma any_not_isEmpty_eq (l : List (List RecordedEvent)) :
    (l.any fun t => !t.isEmpty) = !(l.all List.isEmpty) := by
  induction l with
  | nil => rfl
  | cons x xs ih => simp [List.any_cons, List.all_cons, ih, Bool.not_and]

lemma patchLastFrame_append (now : Int) (fs : List FrameData) (f : FrameData) :
    patchLastFrame now (fs ++ [f]) =
      fs ++ [if f.isComplete then f else { f with endTime := now }] := by
  induction fs with
  | nil => rfl
  | cons a fs ih =>
    cases hfs : fs ++ [f] with
    | nil => simp at hfs
    | cons b l =>
      show patchLastFrame now (a :: (fs ++ [f])) = _
      rw [hfs]
      simp only [patchLastFrame]
      rw [← hfs, ih]
      rfl

/-- C3 counterexample: with an empty frame ledger and one thread whose
completed-events queue holds a nested pair committed inner-first (starts 20
then 10), getResults synthesizes the frame [20, 10) — the queue front's and
back's starts — while the minimum and maximum start over all recorded events
are 10 and 20. The claimed synthetic frame [min-start, max-start) is
therefore not what the code computes. -/
theorem c3_counterexample :
    (getResults stNested regOne 99).frames = [⟨0, 20, 10⟩] ∧
    minStartAll (eventsOf stNested regOne) = 10 ∧
    maxStartAll (eventsOf stNested regOne) = 20 := by
  decide

/-- C3 (amended): in the bundle returned by getResults, (1) if the ledger
was empty and no thread had completed events, the bundle holds the single
synthetic frame [0, 1) with frame_data_missing true; (2) if the ledger was
empty but events exist, it holds a single synthetic frame whose start is the
minimum over threads of the start of the FIRST event in that thread's
commit-ordered queue and whose end is the maximum over threads of the start
of the LAST event in the queue (equal to the overall min/max start only when
every queue is ordered by start); (3) otherwise frame_data_missing is false
and the last frame's end is set to now() exactly when it was not complete. -/
theorem c3_frame_reconciliation (st : ProfilerState) (reg : Registry) (now : Int) :
    (st.frames = [] → (eventsOf st reg).all List.isEmpty = true →
      (getResults st reg now).frames = [⟨0, 0, 1⟩] ∧
      (getResults st reg now).frameDataMissing = true) ∧
    (st.frames = [] → (eventsOf st reg).all List.isEmpty = false →
      (getResults st reg now).frames =
        [⟨0, foldFirst (eventsOf st reg), foldLast (eventsOf st reg)⟩] ∧
      (getResults st reg now).frameDataMissing = true) ∧
    (∀ fs f, st.frames = fs ++ [f] →
      (getResults st reg now).frameDataMissing = false ∧
      (f.isComplete = false →
        (getResults st reg now).frames = fs ++ [{ f with endTime := now }]) ∧
      (f.isComplete = true → (getResults st reg now).frames = fs ++ [f])) := by
  refine ⟨?_, ?_, ?_⟩
  · intro hfr hall
    unfold getResults
    dsimp only
    rw [hfr, any_not_isEmpty_eq, hall]
    simp
  · intro hfr hall
    unfold getResults
    dsimp only
    rw [hfr, any_not_isEmpty_eq, hall]
    simp
  · intro fs f hfr
    have hne : st.frames.isEmpty = false := by
      rw [hfr]
      cases fs <;> rfl
    unfold getResults
    dsimp only
    rw [hne]
    simp only [Bool.false_and, Bool.false_eq_true, if_false]
    rw [hfr, patchLastFrame_append]
    refine ⟨trivial, ?_, ?_⟩
    · intro hc
      rw [hc]
      simp
    · intro hc
      rw [hc]
      simp

/-- C3 witness: the middle branch evaluated on the concrete nested state. -/
theorem c3_frame_reconciliation_witness :
    (getResults stNested regOne 99).frames =
      [⟨0, foldFirst (eventsOf stNested regOne), foldLast (eventsOf stNested regOne)⟩] ∧
    (getResults stNested regOne 99).frameDataMissing = true :=
  (c3_frame_reconciliation stNested regOne 99).2.1 rfl (by decide)
/-! ## Helper lemmas: scope operations and the recording gate -/

lemma getD_nil_recordedEvents (threads : List ThreadData)
    (h : ∀ td ∈ threads, td.recordedEvents = []) (i : Nat) :
    (threads.getD i defaultThreadData).recordedEvents = [] := by
  induction threads generalizing i with
  | nil => cases i <;> rfl
  | cons td rest ih =>
    cases i with
    | zero => exact h td (List.mem_cons_self _ _)
    | succ j => exact ih (fun td₂ h₂ => h td₂ (List.mem_cons_of_mem _ h₂)) j

lemma insertScopeStart_recordedEvents (recording : Bool) (now : Int) (key : Nat)
    (td : ThreadData) :
    (insertScopeStart recording now key td).recordedEvents = td.recordedEvents := rfl

lemma insertScopeEnd_not_recording (now : Int) (key : Nat) (td : ThreadData) :
    (insertScopeEnd false now key td).recordedEvents = td.recordedEvents := by
  obtain ⟨stack, events, depth⟩ := td
  cases stack with
  | nil => rfl
  | cons top rest => simp [insertScopeEnd]

lemma applyScopeOp_keeps_nil (now : Int) (st : ProfilerState) (op : Nat × ScopeOp)
    (h : ∀ td ∈ st.threads, td.recordedEvents = []) :
    ∀ td ∈ (applyScopeOp false now st op).threads, td.recordedEvents = [] := by
  obtain ⟨i, o⟩ := op
  intro td htd
  cases o with
  | enter key =>
    dsimp only [applyScopeOp] at htd
    rcases List.mem_or_eq_of_mem_set htd with hmem | heq
    · exact h td hmem
    · subst heq
      rw [insertScopeStart_recordedEvents]
      exact getD_nil_recordedEvents st.threads h i
  | leave key =>
    dsimp only [applyScopeOp] at htd
    rcases List.mem_or_eq_of_mem_set htd with hmem | heq
    · exact h td hmem
    · subst heq
      rw [insertScopeEnd_not_recording]
      exact getD_nil_recordedEvents st.threads h i

lemma foldOps_keeps_nil (ops : List (Nat × ScopeOp)) :
    ∀ st : ProfilerState, (∀ td ∈ st.threads, td.recordedEvents = []) →
    ∀ td ∈ (ops.foldl (applyScopeOp false 0) st).threads, td.recordedEvents = [] := by
  induction ops with
  | nil => intro st h; exact h
  | cons op rest ih =>
    intro st h
    exact ih _ (applyScopeOp_keeps_nil 0 st op h)

lemma getResults_anyRecords (st : ProfilerState) (reg : Registry) (now : Int) :
    (getResults st reg now).anyRecords = ((eventsOf st reg).any fun t => !t.isEmpty) := rfl

lemma anyRecords_false_of_nil (st : ProfilerState) (reg : Registry) (now : Int)
    (h : ∀ td ∈ st.threads, td.recordedEvents = []) :
    (getResults st reg now).anyRecords = false := by
  rw [getResults_anyRecords, any_not_isEmpty_eq]
  have hall : (eventsOf st reg).all List.isEmpty = true := by
    rw [List.all_eq_true]
    intro t ht
    rcases List.mem_map.mp ht with ⟨i, hi, hti⟩
    rw [← hti, getD_nil_recordedEvents st.threads h i]
    rfl
  rw [hall]
  rfl

/-- C5: insertScopeEnd commits an interval into the thread's
completed-events queue exactly when recording is on and the top-of-stack
event is valid (start differs from the stored end, which insertScopeStart
always leaves at the 0 sentinel, so validity is exactly start differing from
the sentinel stamped while recording was off); in that case the event's end
is set to now() before the push. Consequently any sequence of scope
operations performed while recording is off commits nothing, and a
getResults over only such activity reports anyRecords = false. -/
theorem c5_scope_end_commit :
    (∀ (recording : Bool) (now : Int) (key : Nat) (td : ThreadData)
        (top : RecordedEvent) (rest : List RecordedEvent),
      td.activeStack = top :: rest →
      ((recording = true ∧ top.start ≠ top.endTime →
        (insertScopeEnd recording now key td).recordedEvents =
          td.recordedEvents ++ [{ top with endTime := now }]) ∧
       (¬(recording = true ∧ top.start ≠ top.endTime) →
        (insertScopeEnd recording now key td).recordedEvents = td.recordedEvents))) ∧
    (∀ (recording : Bool) (now : Int) (key : Nat) (td : ThreadData),
      ((insertScopeStart recording now key td).activeStack.head?.map RecordedEvent.endTime) =
        some 0 ∧
      (recording = false →
        ((insertScopeStart recording now key td).activeStack.head?.map RecordedEvent.start) =
          some 0)) ∧
    (∀ (ops : List (Nat × ScopeOp)) (st : ProfilerState) (reg : Registry) (now : Int),
      (∀ td ∈ st.threads, td.recordedEvents = []) →
      (getResults (ops.foldl (applyScopeOp false 0) st) reg now).anyRecords = false) := by
  refine ⟨?_, ?_, ?_⟩
  · intro recording now key td top rest hstack
    obtain ⟨stack, events, depth⟩ := td
    dsimp only at hstack
    subst hstack
    unfold insertScopeEnd
    dsimp only
    cases hcond : (recording && top.isValid) with
    | true =>
      rw [Bool.and_eq_true, RecordedEvent.isValid, decide_eq_true_eq] at hcond
      constructor
      · intro _
        simp
      · intro hnot
        exact absurd hcond hnot
    | false =>
      constructor
      · intro hpos
        rw [hpos.1] at hcond
        simp only [Bool.true_and, RecordedEvent.isValid, decide_eq_false_iff_not,
          not_not] at hcond
        exact absurd hcond hpos.2
      · intro _
        simp
  · intro recording now key td
    constructor
    · rfl
    · intro hrec
      subst hrec
      rfl
  · intro ops st reg now h
    exact anyRecords_false_of_nil _ reg now (foldOps_keeps_nil ops st h)

/-- C5 witness: a commit with recording on, a skip with the sentinel, and
the recording-off gate on a concrete operation list. -/
theorem c5_scope_end_commit_witness :
    (insertScopeEnd true 50 7 ⟨[⟨7, 0, 10, 0⟩], [], 0⟩).recordedEvents = [⟨7, 0, 10, 50⟩] ∧
    (insertScopeEnd false 50 7 ⟨[⟨7, 0, 0, 0⟩], [], 0⟩).recordedEvents = [] ∧
    (getResults ([((0 : Nat), ScopeOp.enter 7), (0, ScopeOp.leave 7)].foldl
      (applyScopeOp false 0) stOneFrame) regOne 99).anyRecords = false := by
  obtain ⟨h1, h2, h3⟩ := c5_scope_end_commit
  refine ⟨?_, ?_, ?_⟩
  · have hcommit := (h1 true 50 7 ⟨[⟨7, 0, 10, 0⟩], [], 0⟩ ⟨7, 0, 10, 0⟩ [] rfl).1
      ⟨rfl, by decide⟩
    simpa using hcommit
  · exact (h1 false 50 7 ⟨[⟨7, 0, 0, 0⟩], [], 0⟩ ⟨7, 0, 0, 0⟩ [] rfl).2 (by simp)
  · exact h3 [(0, ScopeOp.enter 7), (0, ScopeOp.leave 7)] stOneFrame regOne 99 (by decide)
/-! ## Helper lemmas: barrier and registry -/

lemma notifyCompleted_fst (c : Int) : (notifyCompleted c).1 = c - 1 := by
  unfold notifyCompleted
  dsimp only
  split <;> rfl

lemma counterAfter_eq (N : Int) (k : Nat) : counterAfter N k = N - k := by
  induction k with
  | zero => simp [counterAfter]
  | succ k ih =>
    show (notifyCompleted (counterAfter N k)).1 = N - (k + 1 : Nat)
    rw [notifyCompleted_fst, ih]
    push_cast
    ring

/-- C6: a Barrier built with non-negative count N constructs (a negative
count raises InvalidArgument); every notifyCompleted call decrements the
remaining counter (the k-th call leaves N - k) and then signals the
condition variable exactly when it did not fail; the k-th call fails with
OverCompletion exactly when k exceeds N, i.e. when notifyCompleted was
invoked more than N times in total; and waitForAll's wake-up condition holds
exactly when the counter is 0. -/
theorem c6_barrier (N : Int) (k : Nat) (hN : 0 ≤ N) (hk : 1 ≤ k) :
    barrierNew N = Except.ok N ∧
    (∀ M : Int, M < 0 → barrierNew M = Except.error BarrierError.invalidArgument) ∧
    counterAfter N k = N - k ∧
    ((notifyCompleted (counterAfter N (k - 1))).2.1 = true ↔ N < (k : Int)) ∧
    ((notifyCompleted (counterAfter N (k - 1))).2.2 = true ↔ ¬(N < (k : Int))) ∧
    (∀ c : Int, waitForAllWakes c = true ↔ c = 0) := by
  refine ⟨?_, ?_, counterAfter_eq N k, ?_, ?_, ?_⟩
  · unfold barrierNew
    rw [if_neg (not_lt.mpr hN)]
  · intro M hM
    unfold barrierNew
    rw [if_pos hM]
  · rw [counterAfter_eq]
    unfold notifyCompleted
    dsimp only
    split <;> rename_i hc <;> simp <;> omega
  · rw [counterAfter_eq]
    unfold notifyCompleted
    dsimp only
    split <;> rename_i hc <;> simp <;> omega
  · intro c
    unfold waitForAllWakes
    simp

/-- C6 witness: the barrier of 3 over five notifications. -/
theorem c6_barrier_witness :
    barrierNew 3 = Except.ok 3 ∧
    counterAfter 3 5 = -2 ∧
    (notifyCompleted (counterAfter 3 4)).2.1 = true ∧
    barrierNew (-1) = Except.error BarrierError.invalidArgument ∧
    waitForAllWakes 0 = true := by
  have h := c6_barrier 3 5 (by decide) (by decide)
  refine ⟨h.1, ?_, ?_, h.2.1 (-1) (by decide), (h.2.2.2.2.2 0).mpr rfl⟩
  · rw [h.2.2.1]
    decide
  · exact h.2.2.2.1.mpr (by decide)

lemma registerFresh_success (st : Registry) (h : st.counter < maxThreadCount) :
    registerFresh st =
      (⟨st.names.set st.counter (defaultName st.counter), st.counter + 1⟩,
       ⟨some st.counter, defaultName st.counter⟩, Except.ok st.counter) := by
  unfold registerFresh GetCurrentThreadID assignNext
  dsimp only
  rw [if_neg (by omega : ¬ st.counter ≥ maxThreadCount)]
  rfl

lemma registerFresh_fail (st : Registry) (h : st.counter ≥ maxThreadCount) :
    registerFresh st =
      (st, ⟨some st.counter, []⟩, Except.error RegError.tooManyThreads) := by
  unfold registerFresh GetCurrentThreadID assignNext
  dsimp only
  rw [if_pos h]

lemma registryAfter_counter (k : Nat) (hk : k ≤ maxThreadCount) :
    (registryAfter k).counter = k := by
  induction k with
  | zero => rfl
  | succ k ih =>
    have hk' : k ≤ maxThreadCount := Nat.le_of_succ_le hk
    have hklt : (registryAfter k).counter < maxThreadCount := by
      rw [ih hk']
      omega
    show (registerFresh (registryAfter k)).1.counter = k + 1
    rw [registerFresh_success _ hklt]
    dsimp only
    rw [ih hk']

/-- C7: starting from a fresh registry, the (k+1)-th distinct thread to
call GetCurrentThreadID receives the dense zero-based id k and the counter
advances to k+1 (ids are issued in assignment order and never recycled);
the registration of the (MAX_THREADS+1)-th distinct thread fails with
TooManyThreads; and a thread whose thread-local id is already cached gets it
back with no registry interaction. -/
theorem c7_thread_ids (k : Nat) :
    (k < maxThreadCount →
      (registerFresh (registryAfter k)).2.2 = Except.ok k ∧
      (registryAfter (k + 1)).counter = k + 1) ∧
    (k = maxThreadCount →
      (registerFresh (registryAfter k)).2.2 = Except.error RegError.tooManyThreads ∧
      (registerFresh (registryAfter k)).1.counter = k) ∧
    (∀ (st : Registry) (tl : ThreadLocalSt) (id₂ : Nat), tl.tlId = some id₂ →
      GetCurrentThreadID st tl = (st, tl, Except.ok id₂)) := by
  refine ⟨?_, ?_, ?_⟩
  · intro hk
    have hc : (registryAfter k).counter = k := registryAfter_counter k (Nat.le_of_lt hk)
    have hlt : (registryAfter k).counter < maxThreadCount := by omega
    constructor
    · rw [registerFresh_success _ hlt]
      dsimp only
      rw [hc]
    · show (registerFresh (registryAfter k)).1.counter = k + 1
      rw [registerFresh_success _ hlt]
      dsimp only
      rw [hc]
  · intro hk
    have hc : (registryAfter k).counter = k := registryAfter_counter k (le_of_eq hk)
    have hge : (registryAfter k).counter ≥ maxThreadCount := by omega
    rw [registerFresh_fail _ hge]
    exact ⟨rfl, hc⟩
  · intro st tl id₂ htl
    unfold GetCurrentThreadID
    rw [htl]

/-- C7 witness: the first registration, the counter after it, and the
overflowing registration, all concrete. -/
theorem c7_thread_ids_witness :
    (registerFresh (registryAfter 0)).2.2 = Except.ok 0 ∧
    (registryAfter 1).counter = 1 ∧
    (registerFresh (registryAfter maxThreadCount)).2.2 =
      Except.error RegError.tooManyThreads ∧
    GetCurrentThreadID ⟨initNames, 3⟩ ⟨some 2, [65]⟩ =
      (⟨initNames, 3⟩, ⟨some 2, [65]⟩, Except.ok 2) := by
  have h0 := c7_thread_ids 0
  have hM := c7_thread_ids maxThreadCount
  exact ⟨(h0.1 (by decide)).1, (h0.1 (by decide)).2, (hM.2.1 rfl).1,
    h0.2.2 ⟨initNames, 3⟩ ⟨some 2, [65]⟩ 2 rfl⟩
/-- C8: in every bundle produced by getResults the i-th tag table entry has
tag id i, so the tag records of section 3 — which writeToFile emits by
iterating the table in order, each record beginning with its id — appear
with ids ascending from 0. -/
theorem c8_tags_ascending (st : ProfilerState) (reg : Registry) (now : Int)
    (i : Nat) (t : Nat × TagNameAndColor)
    (h : (getResults st reg now).tags[i]? = some t) : t.1 = i := by
  have htags : (getResults st reg now).tags = tagsTable := rfl
  rw [htags] at h
  unfold tagsTable at h
  rw [List.getElem?_map] at h
  cases hr : (List.range profilerTagCount)[i]? with
  | none =>
    rw [hr] at h
    cases h
  | some j =>
    rw [hr] at h
    have hlen : i < (List.range profilerTagCount).length := by
      by_contra hge
      rw [List.getElem?_eq_none (by omega)] at hr
      cases hr
    have hji : j = i := by
      have h2 : (List.range profilerTagCount)[i]? = some i :=
        List.getElem?_range (by simpa using hlen)
      exact Option.some.inj (hr.symm.trans h2)
    subst hji
    have h3 : some ((j, ⟨GetTagName j, GetTagColor j⟩) : Nat × TagNameAndColor) = some t := h
    injection h3 with h4
    rw [← h4]

/-- C9: RecordedEvent::operator== and FrameData::operator== compare the
left operand's end with itself, so two events agreeing on key, depth and
start (resp. two frames agreeing on number and start) compare equal whatever
their ends are; consequently ProfilerResults::operator== is insensitive to
rewriting every event end and every frame end of a bundle. -/
theorem c9_end_time_ignored :
    (∀ a b : RecordedEvent, a.key = b.key → a.depth = b.depth → a.start = b.start →
      recordedEventEq a b = true) ∧
    (∀ a b : FrameData, a.number = b.number → a.start = b.start →
      frameDataEq a b = true) ∧
    (∀ (B : ProfilerResults) (f : RecordedEvent → Int) (g : FrameData → Int),
      NodupKeys B.scopes → NodupKeys B.tags →
      profilerResultsEq (remapEnds f g B) B = true) := by
  refine ⟨?_, ?_, ?_⟩
  · intro a b h1 h2 h3
    simp [recordedEventEq, h1, h2, h3]
  · intro a b h1 h2
    simp [frameDataEq, h1, h2]
  · intro B f g hs ht
    unfold profilerResultsEq remapEnds
    dsimp only
    simp only [Bool.and_eq_true, beq_self_eq_true, and_true]
    refine ⟨⟨⟨?_, mapEqBy_refl _ _ hs fun kv _ => scopeInfoEq_refl kv.2⟩,
      mapEqBy_refl _ _ ht fun kv _ => tagEq_refl kv.2⟩, ?_⟩
    · exact listEqBy_map _ _ _ fun fr _ => by simp [frameDataEq]
    · exact listEqBy_map _ _ _ fun evs _ =>
        listEqBy_map _ _ _ fun e _ => by simp [recordedEventEq]

/-- C9 witness: events and frames differing only in their ends compare
equal, and a concrete bundle stays equal to itself after all ends are
rewritten. -/
theorem c9_end_time_ignored_witness :
    recordedEventEq ⟨1, 0, 5, 7⟩ ⟨1, 0, 5, 99⟩ = true ∧
    frameDataEq ⟨2, 5, 7⟩ ⟨2, 5, 99⟩ = true ∧
    profilerResultsEq (remapEnds (fun _ => 42) (fun _ => 43) bundleSmall) bundleSmall =
      true := by
  obtain ⟨h1, h2, h3⟩ := c9_end_time_ignored
  refine ⟨h1 _ _ rfl rfl rfl, h2 _ _ rfl rfl, h3 bundleSmall _ _ ?_ ?_⟩
  · unfold NodupKeys
    decide
  · unfold NodupKeys
    decide

/-- C10: when registration fails with TooManyThreads the registry counter
is left unchanged (and never exceeds MAX_THREADS), but the failing thread's
thread-local id was already set to the out-of-range value MAX_THREADS before
the throw; a subsequent GetCurrentThreadID on that thread returns that
invalid id, and GetCurrentThreadName returns the stale thread-local name,
neither raising the error again. -/
theorem c10_overflow_poisons_thread_local (nm : List (List Nat)) (w : List Nat) :
    GetCurrentThreadID ⟨nm, maxThreadCount⟩ ⟨none, w⟩ =
      (⟨nm, maxThreadCount⟩, ⟨some maxThreadCount, w⟩,
        Except.error RegError.tooManyThreads) ∧
    GetCurrentThreadID ⟨nm, maxThreadCount⟩ ⟨some maxThreadCount, w⟩ =
      (⟨nm, maxThreadCount⟩, ⟨some maxThreadCount, w⟩, Except.ok maxThreadCount) ∧
    GetCurrentThreadName ⟨nm, maxThreadCount⟩ ⟨some maxThreadCount, w⟩ =
      (⟨nm, maxThreadCount⟩, ⟨some maxThreadCount, w⟩, Except.ok w) ∧
    (∀ (st : Registry) (tl : ThreadLocalSt), st.counter ≤ maxThreadCount →
      (GetCurrentThreadID st tl).1.counter ≤ maxThreadCount) := by
  refine ⟨?_, rfl, rfl, ?_⟩
  · unfold GetCurrentThreadID assignNext
    dsimp only
    rw [if_pos (le_refl maxThreadCount)]
  · intro st tl h
    unfold GetCurrentThreadID assignNext
    cases htl : tl.tlId with
    | some id₂ =>
      dsimp only
      exact h
    | none =>
      dsimp only
      by_cases hge : st.counter ≥ maxThreadCount
      · rw [if_pos hge]
        exact h
      · rw [if_neg hge]
        dsimp only
        omega

/-- C10 witness: the poisoning, the stale name and the counter bound on
concrete registries. -/
theorem c10_overflow_witness :
    GetCurrentThreadID ⟨initNames, maxThreadCount⟩ ⟨none, []⟩ =
      (⟨initNames, maxThreadCount⟩, ⟨some maxThreadCount, []⟩,
        Except.error RegError.tooManyThreads) ∧
    GetCurrentThreadName ⟨initNames, maxThreadCount⟩ ⟨some maxThreadCount, []⟩ =
      (⟨initNames, maxThreadCount⟩, ⟨some maxThreadCount, []⟩, Except.ok []) ∧
    (GetCurrentThreadID ⟨initNames, 3⟩ ⟨none, []⟩).1.counter ≤ maxThreadCount := by
  have h := c10_overflow_poisons_thread_local initNames []
  exact ⟨h.1, h.2.2.1, h.2.2.2 ⟨initNames, 3⟩ ⟨none, []⟩ (by decide)⟩
/-- C8 witness: the 0-th tag entry of a concrete extraction carries id 0. -/
theorem c8_tags_ascending_witness :
    (((0 : Nat), (⟨untaggedName, ⟨255, 255, 255, 255⟩⟩ : TagNameAndColor))).1 = 0 :=
  c8_tags_ascending stOneFrame regOne 99 0
    ((0 : Nat), (⟨untaggedName, ⟨255, 255, 255, 255⟩⟩ : TagNameAndColor)) (by decide)

/-! ## Helper lemmas: the thread pool drain invariant -/

lemma runningTasks_append (a b : List WStatus) :
    runningTasks (a ++ b) = runningTasks a ++ runningTasks b := by
  unfold runningTasks
  exact List.filterMap_append a b _

lemma runningTasks_waiting_cons (post : List WStatus) :
    runningTasks (WStatus.waiting :: post) = runningTasks post := rfl

lemma runningTasks_exited_cons (post : List WStatus) :
    runningTasks (WStatus.exited :: post) = runningTasks post := rfl

lemma runningTasks_running_cons (t : Nat) (post : List WStatus) :
    runningTasks (WStatus.running t :: post) = t :: runningTasks post := rfl

/-- The drain invariant: the enqueue history is exactly the executed tasks,
the in-execution tasks and the queued tasks together; and an exited worker
means running is false and the queue is empty. -/
def PoolInv (s : PoolState) : Prop :=
  s.enqueued.Perm (s.executed ++ runningTasks s.workers ++ s.queue) ∧
  (WStatus.exited ∈ s.workers → s.running = false ∧ s.queue = [])

lemma poolInv_init (n : Nat) : PoolInv (initPool n) := by
  constructor
  · show List.Perm [] ([] ++ runningTasks (List.replicate n WStatus.waiting) ++ [])
    have hrt : runningTasks (List.replicate n WStatus.waiting) = [] := by
      induction n with
      | zero => rfl
      | succ n ih => simpa [List.replicate, runningTasks_waiting_cons] using ih
    rw [hrt]
    rfl
  · intro hmem
    exact absurd (List.eq_of_mem_replicate hmem) (by decide)

lemma poolInv_step (s s₂ : PoolState) (hstep : PoolStep s s₂) (hinv : PoolInv s) :
    PoolInv s₂ := by
  obtain ⟨hperm, hexit⟩ := hinv
  cases hstep with
  | addTask s t hrun =>
    constructor
    · dsimp only
      refine (hperm.append_right [t]).trans ?_
      rw [← Multiset.coe_eq_coe]
      simp only [← Multiset.coe_add, ← Multiset.cons_coe, ← Multiset.singleton_add]
      abel
    · intro hmem
      rcases hexit hmem with ⟨hf, _⟩
      rw [hrun] at hf
      cases hf
  | shutdown s =>
    exact ⟨hperm, fun hmem => ⟨rfl, (hexit hmem).2⟩⟩
  | popTask q E X r t pre post =>
    constructor
    · dsimp only at hperm ⊢
      refine hperm.trans ?_
      rw [runningTasks_append, runningTasks_waiting_cons,
        runningTasks_append, runningTasks_running_cons]
      rw [← Multiset.coe_eq_coe]
      simp only [← Multiset.coe_add, ← Multiset.cons_coe, ← Multiset.singleton_add]
      abel
    · intro hmem
      dsimp only at hmem
      have hmem₂ : WStatus.exited ∈ pre ++ WStatus.waiting :: post := by
        rcases List.mem_append.mp hmem with hp | hq
        · exact List.mem_append.mpr (Or.inl hp)
        · rcases List.mem_cons.mp hq with he | hq₂
          · cases he
          · exact List.mem_append.mpr (Or.inr (List.mem_cons_of_mem _ hq₂))
      rcases hexit hmem₂ with ⟨_, hq⟩
      cases hq
  | finishTask q E X r t pre post =>
    constructor
    · dsimp only at hperm ⊢
      refine hperm.trans ?_
      rw [runningTasks_append, runningTasks_running_cons,
        runningTasks_append, runningTasks_waiting_cons]
      rw [← Multiset.coe_eq_coe]
      simp only [← Multiset.coe_add, ← Multiset.cons_coe, ← Multiset.singleton_add]
      abel
    · intro hmem
      dsimp only at hmem
      have hmem₂ : WStatus.exited ∈ pre ++ WStatus.running t :: post := by
        rcases List.mem_append.mp hmem with hp | hq
        · exact List.mem_append.mpr (Or.inl hp)
        · rcases List.mem_cons.mp hq with he | hq₂
          · cases he
          · exact List.mem_append.mpr (Or.inr (List.mem_cons_of_mem _ hq₂))
      exact hexit hmem₂
  | exitWorker E X pre post =>
    constructor
    · dsimp only at hperm ⊢
      refine hperm.trans ?_
      rw [runningTasks_append, runningTasks_waiting_cons,
        runningTasks_append, runningTasks_exited_cons]
    · intro _
      exact ⟨rfl, rfl⟩

lemma poolInv_reachable (n : Nat) (s : PoolState) (h : PoolReachable n s) : PoolInv s := by
  unfold PoolReachable at h
  induction h with
  | refl => exact poolInv_init n
  | tail hr hstep ih => exact poolInv_step _ _ hstep ih
/-- C4 counterexample: a reachable interleaving of a two-worker pool in
which one task was enqueued before shutdown, worker 0 has dequeued it and is
still executing it, and worker 1 has already exited its loop. The task is
enqueued, no worker has finished executing it, yet a worker has exited — so
"every enqueued task is executed before any worker exits" is false as
stated. -/
theorem c4_counterexample :
    PoolReachable 2 poolD ∧
    WStatus.exited ∈ poolD.workers ∧
    0 ∈ poolD.enqueued ∧
    0 ∉ poolD.executed := by
  refine ⟨?_, by decide, by decide, by decide⟩
  have s1 : PoolStep (initPool 2) poolA := PoolStep.addTask (initPool 2) 0 rfl
  have s2 : PoolStep poolA poolB := PoolStep.shutdown poolA
  have s3 : PoolStep poolB poolC :=
    PoolStep.popTask [] [0] [] false 0 [] [WStatus.waiting]
  have s4 : PoolStep poolC poolD :=
    PoolStep.exitWorker [0] [] [WStatus.running 0] []
  exact Relation.ReflTransGen.tail
    (Relation.ReflTransGen.tail
      (Relation.ReflTransGen.tail
        (Relation.ReflTransGen.tail Relation.ReflTransGen.refl s1) s2) s3) s4

/-- C4 (amended): in every reachable pool state in which some worker has
exited its loop, every task that was ever successfully enqueued has been
dequeued for execution — it is in the executed history or currently being
executed by some worker (the dequeuing worker runs it unconditionally before
returning to its loop); and a step in which a worker exits its loop is
possible only from a state where running is false and the task queue is
empty. -/
theorem c4_pool_drain (n : Nat) (s : PoolState) (h : PoolReachable n s) :
    (WStatus.exited ∈ s.workers →
      ∀ t ∈ s.enqueued, t ∈ s.executed ∨ t ∈ runningTasks s.workers) ∧
    (∀ (s₃ s₄ : PoolState), PoolStep s₃ s₄ →
      s₄.workers.count WStatus.exited ≠ s₃.workers.count WStatus.exited →
      s₃.running = false ∧ s₃.queue = []) := by
  constructor
  · intro hmem t ht
    obtain ⟨hperm, hexit⟩ := poolInv_reachable n s h
    rcases hexit hmem with ⟨_, hq⟩
    have hin := (hperm.mem_iff).mp ht
    rw [hq] at hin
    simp only [List.append_nil, List.mem_append] at hin
    exact hin
  · intro s₃ s₄ hstep hne
    cases hstep with
    | addTask s t hrun => exact absurd rfl hne
    | shutdown s => exact absurd rfl hne
    | popTask q E X r t pre post =>
      exfalso
      apply hne
      dsimp only
      rw [List.count_append, List.count_append, List.count_cons, List.count_cons]
      simp [show (WStatus.waiting == WStatus.exited) = false from rfl,
        show (WStatus.running t == WStatus.exited) = false from rfl]
    | finishTask q E X r t pre post =>
      exfalso
      apply hne
      dsimp only
      rw [List.count_append, List.count_append, List.count_cons, List.count_cons]
      simp [show (WStatus.waiting == WStatus.exited) = false from rfl,
        show (WStatus.running t == WStatus.exited) = false from rfl]
    | exitWorker E X pre post => exact ⟨rfl, rfl⟩

/-- C4 witness: a concrete fully drained trace with an exited worker. -/
theorem c4_pool_drain_witness :
    WStatus.exited ∈ poolF.workers ∧
    (0 ∈ poolF.executed ∨ 0 ∈ runningTasks poolF.workers) := by
  have s1 : PoolStep (initPool 2) poolA := PoolStep.addTask (initPool 2) 0 rfl
  have s2 : PoolStep poolA poolB := PoolStep.shutdown poolA
  have s3 : PoolStep poolB poolC :=
    PoolStep.popTask [] [0] [] false 0 [] [WStatus.waiting]
  have s4 : PoolStep poolC poolD :=
    PoolStep.exitWorker [0] [] [WStatus.running 0] []
  have s5 : PoolStep poolD poolE :=
    PoolStep.finishTask [] [0] [] false 0 [] [WStatus.exited]
  have s6 : PoolStep poolE poolF :=
    PoolStep.exitWorker [0] [0] [] [WStatus.exited]
  have hreach : PoolReachable 2 poolF :=
    Relation.ReflTransGen.tail
      (Relation.ReflTransGen.tail
        (Relation.ReflTransGen.tail
          (Relation.ReflTransGen.tail
            (Relation.ReflTransGen.tail
              (Relation.ReflTransGen.tail Relation.ReflTransGen.refl s1) s2) s3) s4) s5) s6
  exact ⟨by decide, (c4_pool_drain 2 poolF hreach).1 (by decide) 0 (by decide)⟩
end IYFT
